import Mathlib

/-!
Shallow embedding of the NOVA Protocol in-memory TTL cache
(`src/utils/cache.js`, class `Cache`) and of the cache-with-fallback
price resolver (`src/services/marketData/index.js`,
`MarketDataService.getPrice`).

Modelling conventions:
* JS `Map` is modelled as an insertion-ordered association list
  `List (String × Entry α)`: `Map.set` on an existing key updates in
  place (keeping its position), on a new key appends; iteration order is
  list order.
* `Date.now()` is an explicit `now : Int` parameter threaded through
  every time-dependent operation.
* JS numeric truthiness (`if (x)`) on prices is `x ≠ 0`; string
  truthiness is `x ≠ ""`; `ttl || this.ttl` maps `0`/`undefined` to the
  default TTL (an `Option Int` argument).
* Async/await and rejection are modelled by `Except String`.
-/

set_option autoImplicit false

namespace Nova

/-- One cache entry: `{ value, timestamp, expiry }` as built by `Cache.set`. -/
structure Entry (α : Type) where
  value : α
  timestamp : Int
  expiry : Int
  deriving Repr, DecidableEq

/-- The `stats` record of the cache: `{ hits, misses, sets, deletes }`. -/
structure Stats where
  hits : Nat
  misses : Nat
  sets : Nat
  deletes : Nat
  deriving Repr, DecidableEq

/-- The cache object: backing `Map`, default TTL, max size, counters. -/
structure Cache (α : Type) where
  store : List (String × Entry α)
  ttl : Int
  max : Nat
  stats : Stats
  deriving Repr, DecidableEq

/-- Lookup in the insertion-ordered map (`Map.prototype.get`). -/
def mapGet {α : Type} (k : String) : List (String × Entry α) → Option (Entry α)
  | [] => none
  | (k1, e) :: rest => if k1 = k then some e else mapGet k rest

/-- Update-or-append (`Map.prototype.set`): an existing key keeps its
position, a new key is appended at the end. -/
def mapSet {α : Type} (k : String) (v : Entry α) : List (String × Entry α) → List (String × Entry α)
  | [] => [(k, v)]
  | (k1, e) :: rest => if k1 = k then (k, v) :: rest else (k1, e) :: mapSet k v rest

/-- Removal (`Map.prototype.delete`); keys are unique so removing the
first occurrence suffices. -/
def mapDelete {α : Type} (k : String) : List (String × Entry α) → List (String × Entry α)
  | [] => []
  | (k1, e) :: rest => if k1 = k then rest else (k1, e) :: mapDelete k rest

/-- Loop body of the eviction scan in `Cache.set`: starting from
`oldestKey = null`, `oldestTime = Date.now()`, replace the accumulator
whenever `entry.timestamp < oldestTime` (strict, so the first of several
equally old entries wins). -/
def findOldestGo {α : Type} : Option String → Int → List (String × Entry α) → Option String
  | acc, _, [] => acc
  | acc, t, (k, e) :: rest =>
      if e.timestamp < t then findOldestGo (some k) e.timestamp rest
      else findOldestGo acc t rest

/-- The eviction scan of `Cache.set`: the key of the entry with the
least `timestamp`, but only if that timestamp is strictly below the
current `Date.now()` (the scan starts at `oldestTime = Date.now()`). -/
def findOldestKey {α : Type} (now : Int) (l : List (String × Entry α)) : Option String :=
  findOldestGo none now l

/-- The effective TTL of a `set` call: `ttl || this.ttl` — an absent or
zero (falsy) argument falls back to the default TTL. -/
def effectiveTtl (defaultTtl : Int) : Option Int → Int
  | none => defaultTtl
  | some t => if t = 0 then defaultTtl else t

/-- Model of `Cache.set(key, value, ttl)`. If `size >= max`, scan for the oldest
entry and delete it when its key is truthy (`if (oldestKey)` — both
`null` and the empty string are falsy in JS); then insert
`{value, timestamp: now, expiry: now + (ttl || this.ttl)}` and bump
`sets`. -/
def Cache.set {α : Type} (c : Cache α) (now : Int) (key : String) (value : α)
    (ttl : Option Int) : Cache α :=
  let store1 :=
    if c.max ≤ c.store.length then
      match findOldestKey now c.store with
      | some k => if k = "" then c.store else mapDelete k c.store
      | none => c.store
    else c.store
  { c with
    store := mapSet key ⟨value, now, now + effectiveTtl c.ttl ttl⟩ store1
    stats := { c.stats with sets := c.stats.sets + 1 } }

/-- Model of `Cache.get(key)`: miss (counter bumped) when absent; when
`Date.now() > entry.expiry` the entry is deleted and a miss recorded;
otherwise a hit returning `entry.value`. Returns the value and the
updated cache. -/
def Cache.get {α : Type} (c : Cache α) (now : Int) (key : String) : Option α × Cache α :=
  match mapGet key c.store with
  | none =>
      (none, { c with stats := { c.stats with misses := c.stats.misses + 1 } })
  | some e =>
      if e.expiry < now then
        (none, { c with
                  store := mapDelete key c.store
                  stats := { c.stats with misses := c.stats.misses + 1 } })
      else
        (some e.value, { c with stats := { c.stats with hits := c.stats.hits + 1 } })

/-- Model of `Cache.has(key)`: same expiry handling as `get` (expired entries are
deleted), but no counter is touched. -/
def Cache.has {α : Type} (c : Cache α) (now : Int) (key : String) : Bool × Cache α :=
  match mapGet key c.store with
  | none => (false, c)
  | some e =>
      if e.expiry < now then
        (false, { c with store := mapDelete key c.store })
      else
        (true, c)

/-- Model of `Cache.del(key)`: delete and bump `deletes` only when the key was
present; returns whether it was. -/
def Cache.del {α : Type} (c : Cache α) (key : String) : Bool × Cache α :=
  match mapGet key c.store with
  | some _ =>
      (true, { c with
                store := mapDelete key c.store
                stats := { c.stats with deletes := c.stats.deletes + 1 } })
  | none => (false, c)

/-- Model of `Cache.clear()`: `this.store.clear()` followed by
`this.stats.deletes += this.store.size` — the size is read after the
clear, so the increment is by the new (empty) size. -/
def Cache.clear {α : Type} (c : Cache α) : Cache α :=
  let c1 := { c with store := ([] : List (String × Entry α)) }
  { c1 with stats := { c1.stats with deletes := c1.stats.deletes + c1.store.length } }

/-- The record returned by `Cache.getStats()`. -/
structure StatsView where
  hits : Nat
  misses : Nat
  sets : Nat
  deletes : Nat
  size : Nat
  hitRate : ℚ
  deriving Repr, DecidableEq

/-- Model of `Cache.getStats()`: counters, current size, and
`hits / (hits + misses) || 0` — the `|| 0` turns the `0/0 = NaN` case
into `0`; every other case is the exact quotient. -/
def Cache.getStats {α : Type} (c : Cache α) : StatsView :=
  { hits := c.stats.hits
    misses := c.stats.misses
    sets := c.stats.sets
    deletes := c.stats.deletes
    size := c.store.length
    hitRate :=
      if c.stats.hits + c.stats.misses = 0 then 0
      else (c.stats.hits : ℚ) / ((c.stats.hits : ℚ) + (c.stats.misses : ℚ)) }

/-- The cache constructor: `ttl = options.ttl || 60000`,
`max = options.max || 1000`, empty store, zeroed counters. -/
def cacheNew (α : Type) (ttlOpt : Option Int) (maxOpt : Option Nat) : Cache α :=
  { store := []
    ttl := match ttlOpt with | none => 60000 | some t => if t = 0 then 60000 else t
    max := match maxOpt with | none => 1000 | some m => if m = 0 then 1000 else m
    stats := ⟨0, 0, 0, 0⟩ }

/-- JS truthiness of a number: `0` (and `NaN`, not modelled) is falsy. -/
def jsTruthyInt (p : Int) : Bool := p ≠ 0

/-- Lower-casing over the character data, as `symbol.toLowerCase()`. -/
def jsToLowerCase (s : String) : String := ⟨s.data.map Char.toLower⟩

/-- The cache key built by `getPrice`: `` `price:${symbol.toLowerCase()}` ``. -/
def cacheKeyOf (symbol : String) : String := "price:" ++ jsToLowerCase symbol

/-- The message of the `AppError` thrown by `getPrice` when primary and
fallback both fail. -/
def allFailedMsg (symbol : String) : String :=
  "Failed to get price for " ++ symbol ++ " from any provider"

/-- Outcome of one `getPrice` call: the returned/rejected value, the
price cache afterwards, and which providers were actually called. -/
structure PriceResult where
  result : Except String Int
  cache : Cache Int
  calledPrimary : Bool
  calledFallback : Bool
  deriving Repr

/-- The fetch phase of `getPrice` (after the cached-value check failed):
try the primary provider; on success cache (default TTL) and return; on
failure try the fallback when configured, caching its result on success;
when both fail throw the `AppError`; with no fallback rethrow the
primary error. -/
def getPriceFetch (c1 : Cache Int) (now : Int) (symbol key : String)
    (primary : Except String Int) (fallback : Option (Except String Int)) : PriceResult :=
  match primary with
  | .ok p => ⟨.ok p, c1.set now key p none, true, false⟩
  | .error e1 =>
      match fallback with
      | some (.ok p) => ⟨.ok p, c1.set now key p none, true, true⟩
      | some (.error _) => ⟨.error (allFailedMsg symbol), c1, true, true⟩
      | none => ⟨.error e1, c1, true, false⟩

/-- Model of `MarketDataService.getPrice(symbol)`, with the providers modelled as
one-shot results (each backend is consulted at most once per call).
`priceCache.get` runs first; `if (cachedPrice)` is a truthiness test, so
a cached falsy price (`0`) falls through to the providers. -/
def getPrice (cache : Cache Int) (now : Int) (symbol : String)
    (primary : Except String Int) (fallback : Option (Except String Int)) : PriceResult :=
  let key := cacheKeyOf symbol
  let gp := cache.get now key
  match gp.1 with
  | some p =>
      if jsTruthyInt p then ⟨.ok p, gp.2, false, false⟩
      else getPriceFetch gp.2 now symbol key primary fallback
  | none => getPriceFetch gp.2 now symbol key primary fallback

/-- Whether `sub` occurs at the start of `l`. -/
def startsWith : List Char → List Char → Bool
  | [], _ => true
  | _ :: _, [] => false
  | a :: as, b :: bs => a == b && startsWith as bs

/-- Whether `sub` occurs contiguously anywhere in `l`. -/
def hasSub (sub : List Char) : List Char → Bool
  | [] => startsWith sub []
  | c :: rest => startsWith sub (c :: rest) || hasSub sub rest

/-- Substring containment on strings (`String.prototype.includes`). -/
def strContains (s sub : String) : Bool := hasSub sub.data s.data

/-- Keys of the backing map, in insertion order. -/
def storeKeys {α : Type} (l : List (String × Entry α)) : List String :=
  l.map Prod.fst

theorem mapGet_mapSet_self {α : Type} (k : String) (v : Entry α)
    (l : List (String × Entry α)) : mapGet k (mapSet k v l) = some v := by
  induction l with
  | nil => simp [mapSet, mapGet]
  | cons hd tl ih =>
      obtain ⟨k1, e⟩ := hd
      by_cases h : k1 = k
      · simp [mapSet, h, mapGet]
      · simp [mapSet, h, mapGet, ih]

theorem mapGet_eq_none_of_not_mem {α : Type} (k : String)
    (l : List (String × Entry α)) (h : k ∉ storeKeys l) : mapGet k l = none := by
  induction l with
  | nil => simp [mapGet]
  | cons hd tl ih =>
      obtain ⟨k1, e⟩ := hd
      simp only [storeKeys, List.map_cons, List.mem_cons] at h
      push_neg at h
      simp only [mapGet, if_neg (Ne.symm h.1)]
      exact ih h.2

theorem mapDelete_sublist {α : Type} (k : String) (l : List (String × Entry α)) :
    (mapDelete k l).Sublist l := by
  induction l with
  | nil => simp [mapDelete]
  | cons hd tl ih =>
      obtain ⟨k1, e⟩ := hd
      by_cases h : k1 = k
      · simp only [mapDelete, if_pos h]
        exact List.sublist_cons_self _ _
      · simp only [mapDelete, if_neg h]
        exact List.Sublist.cons₂ _ ih

theorem nodup_mapDelete {α : Type} (k : String) (l : List (String × Entry α))
    (h : (storeKeys l).Nodup) : (storeKeys (mapDelete k l)).Nodup :=
  ((mapDelete_sublist k l).map Prod.fst).nodup h

theorem mem_storeKeys_mapSet {α : Type} (a k : String) (v : Entry α)
    (l : List (String × Entry α)) (h : a ∈ storeKeys (mapSet k v l)) :
    a ∈ storeKeys l ∨ a = k := by
  induction l with
  | nil => simpa [mapSet, storeKeys] using h
  | cons hd tl ih =>
      obtain ⟨k1, e⟩ := hd
      by_cases hk : k1 = k
      · simp only [mapSet, if_pos hk, storeKeys, List.map_cons, List.mem_cons] at h ⊢
        subst hk
        tauto
      · simp only [mapSet, if_neg hk, storeKeys, List.map_cons, List.mem_cons] at h ⊢
        rcases h with h | h
        · tauto
        · rcases ih h with h | h <;> tauto

theorem nodup_mapSet {α : Type} (k : String) (v : Entry α)
    (l : List (String × Entry α)) (h : (storeKeys l).Nodup) :
    (storeKeys (mapSet k v l)).Nodup := by
  induction l with
  | nil => simp [mapSet, storeKeys]
  | cons hd tl ih =>
      obtain ⟨k1, e⟩ := hd
      simp only [storeKeys, List.map_cons, List.nodup_cons] at h
      simp only [mapSet]
      split
      · rename_i hk
        subst hk
        simp only [storeKeys, List.map_cons, List.nodup_cons]
        exact ⟨h.1, h.2⟩
      · rename_i hk
        simp only [storeKeys, List.map_cons, List.nodup_cons]
        refine ⟨fun hmem => ?_, ih h.2⟩
        rcases mem_storeKeys_mapSet _ _ _ _ hmem with hmem | hmem
        · exact h.1 hmem
        · exact hk hmem

theorem mapGet_mapDelete_self {α : Type} (k : String) (l : List (String × Entry α))
    (h : (storeKeys l).Nodup) : mapGet k (mapDelete k l) = none := by
  induction l with
  | nil => simp [mapDelete, mapGet]
  | cons hd tl ih =>
      obtain ⟨k1, e⟩ := hd
      simp only [storeKeys, List.map_cons, List.nodup_cons] at h
      simp only [mapDelete]
      split
      · rename_i hk
        subst hk
        exact mapGet_eq_none_of_not_mem _ _ h.1
      · rename_i hk
        simp only [mapGet, if_neg hk]
        exact ih h.2

theorem mapGet_set_self {α : Type} (c : Cache α) (now : Int) (k : String) (v : α)
    (ttl : Option Int) :
    mapGet k ((c.set now k v ttl).store) = some ⟨v, now, now + effectiveTtl c.ttl ttl⟩ := by
  simp [Cache.set, mapGet_mapSet_self]

theorem nodup_set_store {α : Type} (c : Cache α) (now : Int) (k : String) (v : α)
    (ttl : Option Int) (h : (storeKeys c.store).Nodup) :
    (storeKeys ((c.set now k v ttl).store)).Nodup := by
  unfold Cache.set
  apply nodup_mapSet
  dsimp only
  split
  · split
    · split
      · exact h
      · exact nodup_mapDelete _ _ h
    · exact h
  · exact h

/-- C1: the spec claims `cache.size <= capacity` after every `set` call.
The code violates this: the eviction scan starts at
`oldestTime = Date.now()` and only selects an entry whose `timestamp` is
strictly smaller, so when every stored entry was inserted at the current
millisecond nothing is evicted and the new key is inserted anyway. With
`max = 1`, two `set` calls at the same time leave two stored entries. -/
theorem c1_eviction_bound_code_bug :
    (((cacheNew Int (some 60000) (some 1)).set 0 "a" 1 none).set 0 "b" 2 none).max = 1 ∧
    (((cacheNew Int (some 60000) (some 1)).set 0 "a" 1 none).set 0 "b" 2 none).store.length = 2 := by
  decide

/-- C5: with `h + m > 0` recorded lookups, `getStats().hitRate` is exactly
`h / (h + m)`, and with `h = m = 0` it is `0` (the `|| 0` guard replaces
the `0/0` NaN). -/
theorem c5_hit_rate {α : Type} (c : Cache α) :
    (c.stats.hits + c.stats.misses ≠ 0 →
      c.getStats.hitRate = (c.stats.hits : ℚ) / ((c.stats.hits : ℚ) + (c.stats.misses : ℚ))) ∧
    (c.stats.hits = 0 ∧ c.stats.misses = 0 → c.getStats.hitRate = 0) := by
  constructor
  · intro h
    simp [Cache.getStats, h]
  · rintro ⟨h1, h2⟩
    simp [Cache.getStats, h1, h2]

/-- Witness for C5 at `h = 3`, `m = 1` and at `h = m = 0`. -/
theorem c5_hit_rate_witness :
    (⟨[], 60000, 1000, ⟨3, 1, 0, 0⟩⟩ : Cache Int).getStats.hitRate = 3 / 4 ∧
    (⟨[], 60000, 1000, ⟨0, 0, 0, 0⟩⟩ : Cache Int).getStats.hitRate = 0 := by
  constructor
  · have h := (c5_hit_rate (⟨[], 60000, 1000, ⟨3, 1, 0, 0⟩⟩ : Cache Int)).1 (by decide)
    rw [h]
    norm_num
  · exact (c5_hit_rate (⟨[], 60000, 1000, ⟨0, 0, 0, 0⟩⟩ : Cache Int)).2 ⟨rfl, rfl⟩

/-- C8: `clear()` empties the store and leaves every counter unchanged —
in particular `deletes`, because `this.stats.deletes += this.store.size`
reads the size after `this.store.clear()`, adding zero. -/
theorem c8_clear_frame {α : Type} (c : Cache α) :
    (Cache.clear c).store = [] ∧ (Cache.clear c).stats = c.stats :=
  ⟨rfl, rfl⟩

/-- C9: at capacity (`max = 2`, two live entries), `set` on the already
present key `"b"` still runs the eviction scan first, which removes the
oldest entry `"a"`; the subsequent `Map.set` overwrites `"b"` in place,
so the size drops from 2 to 1. -/
theorem c9_overwrite_at_capacity_evicts :
    (((cacheNew Int (some 60000) (some 2)).set 0 "a" 1 none).set 1 "b" 2 none).store.length = 2 ∧
    ((((cacheNew Int (some 60000) (some 2)).set 0 "a" 1 none).set 1 "b" 2 none).set 5 "b" 9
        none).store.length = 1 ∧
    mapGet "a" ((((cacheNew Int (some 60000) (some 2)).set 0 "a" 1 none).set 1 "b" 2 none).set 5
        "b" 9 none).store = none ∧
    (mapGet "b" ((((cacheNew Int (some 60000) (some 2)).set 0 "a" 1 none).set 1 "b" 2 none).set 5
        "b" 9 none).store).map Entry.value = some 9 := by
  decide

/-- C10: every `get` bumps exactly one of `hits`/`misses` by one, never
touches `sets` or `deletes`, and either leaves the store unchanged or
deletes exactly the (expired) queried key. -/
theorem c10_get_frame {α : Type} (c : Cache α) (now : Int) (k : String) :
    (((c.get now k).2.stats.hits = c.stats.hits + 1 ∧
        (c.get now k).2.stats.misses = c.stats.misses) ∨
      ((c.get now k).2.stats.hits = c.stats.hits ∧
        (c.get now k).2.stats.misses = c.stats.misses + 1)) ∧
    (c.get now k).2.stats.sets = c.stats.sets ∧
    (c.get now k).2.stats.deletes = c.stats.deletes ∧
    ((c.get now k).2.store = c.store ∨ (c.get now k).2.store = mapDelete k c.store) := by
  cases hm : mapGet k c.store with
  | none => simp [Cache.get, hm]
  | some e =>
      by_cases hx : e.expiry < now
      · simp [Cache.get, hm, hx]
      · simp [Cache.get, hm, hx]

/-- C2 counterexample: with both providers failing with messages
`"timeout-primary"` and `"timeout-fallback"`, `getPrice` rejects with the
fixed `AppError` message, which contains neither underlying message —
refuting the claim that the rejection references both failures. -/
theorem c2_counterexample :
    (getPrice (cacheNew Int none none) 0 "BTC" (Except.error "timeout-primary")
        (some (Except.error "timeout-fallback"))).result =
      Except.error (allFailedMsg "BTC") ∧
    strContains (allFailedMsg "BTC") "timeout-primary" = false ∧
    strContains (allFailedMsg "BTC") "timeout-fallback" = false :=
  ⟨rfl, rfl, rfl⟩

/-- C3 counterexample: primary fails, fallback succeeds with the falsy
payload `0`; the value is returned and cached, but the immediately
subsequent `getPrice` treats the cached `0` as a miss (`if (cachedPrice)`
is a truthiness test) and calls the primary provider again — refuting
the claim that the subsequent resolve calls neither provider. -/
theorem c3_counterexample :
    (getPrice (cacheNew Int none none) 0 "ETH" (Except.error "boom")
        (some (Except.ok 0))).result = Except.ok 0 ∧
    (mapGet (cacheKeyOf "ETH") (getPrice (cacheNew Int none none) 0 "ETH" (Except.error "boom")
        (some (Except.ok 0))).cache.store).map Entry.value = some 0 ∧
    (getPrice (getPrice (cacheNew Int none none) 0 "ETH" (Except.error "boom")
        (some (Except.ok 0))).cache 0 "ETH" (Except.error "boom")
        (some (Except.ok 0))).calledPrimary = true :=
  ⟨rfl, rfl, rfl⟩

/-- C6 counterexample: a present, non-expired cache entry holding the
falsy price `0` is ignored by `getPrice` (`if (cachedPrice)` fails), the
primary provider is called, and its value `7` — not the cached `0` — is
returned, refuting the claim for arbitrary cached values. -/
theorem c6_counterexample :
    (mapGet (cacheKeyOf "BTC")
        (((cacheNew Int none none).set 0 (cacheKeyOf "BTC") 0 none).store)).map Entry.value =
      some 0 ∧
    (getPrice ((cacheNew Int none none).set 0 (cacheKeyOf "BTC") 0 none) 0 "BTC"
        (Except.ok 7) none).calledPrimary = true ∧
    (getPrice ((cacheNew Int none none).set 0 (cacheKeyOf "BTC") 0 none) 0 "BTC"
        (Except.ok 7) none).result = Except.ok 7 :=
  ⟨rfl, rfl, rfl⟩

/-- C7 counterexample: `set` with the accepted negative TTL `-1` at time
`100` stores an entry with `expiry = 99 < timestamp = 100`, refuting
`expiresAt > createdAt` for every accepted ttl argument. -/
theorem c7_counterexample :
    mapGet "k" (((cacheNew Int none none).set 100 "k" 1 (some (-1))).store) =
      some ⟨1, 100, 99⟩ ∧ ¬ ((99 : Int) > (100 : Int)) := by
  decide

/-- C2 (amended): when the key is absent from the cache and both the
primary and the fallback provider fail, `getPrice` rejects with the fixed
`AppError` message `allFailedMsg symbol` (which names the symbol but not
the underlying failures), and the cache remains unpopulated for that
key. -/
theorem c2_total_failure (c : Cache Int) (now : Int) (symbol e1 e2 : String)
    (hmiss : mapGet (cacheKeyOf symbol) c.store = none) :
    (getPrice c now symbol (Except.error e1) (some (Except.error e2))).result =
      Except.error (allFailedMsg symbol) ∧
    mapGet (cacheKeyOf symbol)
      (getPrice c now symbol (Except.error e1) (some (Except.error e2))).cache.store = none := by
  constructor
  · simp [getPrice, Cache.get, hmiss, getPriceFetch]
  · simp [getPrice, Cache.get, hmiss, getPriceFetch]

/-- Witness for C2 on an empty cache with two timeout failures. -/
theorem c2_total_failure_witness :
    (getPrice (cacheNew Int none none) 0 "BTC" (Except.error "timeout A")
        (some (Except.error "timeout B"))).result = Except.error (allFailedMsg "BTC") ∧
    mapGet (cacheKeyOf "BTC") (getPrice (cacheNew Int none none) 0 "BTC"
        (Except.error "timeout A") (some (Except.error "timeout B"))).cache.store = none :=
  c2_total_failure (cacheNew Int none none) 0 "BTC" "timeout A" "timeout B" rfl

/-- C3 (amended): on a cache miss with failing primary and a fallback
succeeding with a truthy payload `p ≠ 0` (and a nonnegative default TTL,
as all caches in the service have), `getPrice` returns `p`, stores `p`
under the key, and an immediately subsequent `getPrice` for the same
symbol returns `p` from the cache calling neither provider. For the falsy
payload `0` the result is still returned and cached but the subsequent
call consults the providers again. -/
theorem c3_fallback_correctness (c : Cache Int) (now : Int) (symbol e1 : String) (p : Int)
    (primary2 : Except String Int) (fallback2 : Option (Except String Int))
    (hmiss : mapGet (cacheKeyOf symbol) c.store = none) (hp : p ≠ 0) (httl : 0 ≤ c.ttl) :
    (getPrice c now symbol (Except.error e1) (some (Except.ok p))).result = Except.ok p ∧
    (mapGet (cacheKeyOf symbol)
        (getPrice c now symbol (Except.error e1) (some (Except.ok p))).cache.store).map
      Entry.value = some p ∧
    (getPrice (getPrice c now symbol (Except.error e1) (some (Except.ok p))).cache now symbol
        primary2 fallback2).result = Except.ok p ∧
    (getPrice (getPrice c now symbol (Except.error e1) (some (Except.ok p))).cache now symbol
        primary2 fallback2).calledPrimary = false ∧
    (getPrice (getPrice c now symbol (Except.error e1) (some (Except.ok p))).cache now symbol
        primary2 fallback2).calledFallback = false := by
  have hr1 : (getPrice c now symbol (Except.error e1) (some (Except.ok p))).cache =
      ({ c with stats := { c.stats with misses := c.stats.misses + 1 } } : Cache Int).set now
        (cacheKeyOf symbol) p none := by
    simp [getPrice, Cache.get, hmiss, getPriceFetch]
  have hkey := mapGet_set_self
    ({ c with stats := { c.stats with misses := c.stats.misses + 1 } } : Cache Int) now
    (cacheKeyOf symbol) p none
  have hexp : ¬ ((⟨p, now, now + effectiveTtl c.ttl none⟩ : Entry Int).expiry < now) := by
    simp only [effectiveTtl]
    omega
  refine ⟨?_, ?_, ?_, ?_, ?_⟩
  · simp [getPrice, Cache.get, hmiss, getPriceFetch]
  · rw [hr1, hkey]
    rfl
  · rw [hr1]
    simp [getPrice, Cache.get, hkey, hexp, jsTruthyInt, hp]
  · rw [hr1]
    simp [getPrice, Cache.get, hkey, hexp, jsTruthyInt, hp]
  · rw [hr1]
    simp [getPrice, Cache.get, hkey, hexp, jsTruthyInt, hp]

/-- Witness for C3: empty cache, primary timeout, fallback returns 3000;
the second call is given a failing primary and no fallback, yet answers
3000 from the cache without calling them. -/
theorem c3_fallback_correctness_witness :
    (getPrice (cacheNew Int none none) 0 "ETH" (Except.error "timeout")
        (some (Except.ok 3000))).result = Except.ok 3000 ∧
    (getPrice (getPrice (cacheNew Int none none) 0 "ETH" (Except.error "timeout")
        (some (Except.ok 3000))).cache 0 "ETH" (Except.error "down") none).result =
      Except.ok 3000 ∧
    (getPrice (getPrice (cacheNew Int none none) 0 "ETH" (Except.error "timeout")
        (some (Except.ok 3000))).cache 0 "ETH" (Except.error "down") none).calledPrimary =
      false :=
  ⟨(c3_fallback_correctness (cacheNew Int none none) 0 "ETH" "timeout" 3000
      (Except.error "down") none rfl (by decide) (by decide)).1,
   (c3_fallback_correctness (cacheNew Int none none) 0 "ETH" "timeout" 3000
      (Except.error "down") none rfl (by decide) (by decide)).2.2.1,
   (c3_fallback_correctness (cacheNew Int none none) 0 "ETH" "timeout" 3000
      (Except.error "down") none rfl (by decide) (by decide)).2.2.2.1⟩

/-- C4: after `set(k, v, ttl)` with `ttl > 0` at time `now` (on a store
with unique keys, as JS `Map` guarantees), `get(k)` at `now` returns `v`;
at any `later > now + ttl` the entry is expired, so `get(k)` returns
absent and removes the entry, and `has(k)` is false. -/
theorem c4_expiry {α : Type} (c : Cache α) (now later : Int) (k : String) (v : α) (ttl : Int)
    (hnodup : (storeKeys c.store).Nodup) (httl : 0 < ttl) (hlater : now + ttl < later) :
    ((c.set now k v (some ttl)).get now k).1 = some v ∧
    ((c.set now k v (some ttl)).get later k).1 = none ∧
    mapGet k (((c.set now k v (some ttl)).get later k).2.store) = none ∧
    ((c.set now k v (some ttl)).has later k).1 = false := by
  have heff : effectiveTtl c.ttl (some ttl) = ttl := by
    simp only [effectiveTtl]
    rw [if_neg (by omega)]
  have hkey := mapGet_set_self c now k v (some ttl)
  rw [heff] at hkey
  have hnodup2 := nodup_set_store c now k v (some ttl) hnodup
  have hfresh : ¬ (now + ttl < now) := by omega
  refine ⟨?_, ?_, ?_, ?_⟩
  · simp [Cache.get, hkey, hfresh]
  · simp [Cache.get, hkey, hlater]
  · simp only [Cache.get, hkey]
    rw [if_pos hlater]
    exact mapGet_mapDelete_self _ _ hnodup2
  · simp [Cache.has, hkey, hlater]

/-- Witness for C4: `set("BTC", 50000, 60000)` at time 0; `get` at 0
yields 50000, `get` and `has` at 61000 report the entry gone. -/
theorem c4_expiry_witness :
    (((cacheNew Int none none).set 0 "BTC" 50000 (some 60000)).get 0 "BTC").1 = some 50000 ∧
    (((cacheNew Int none none).set 0 "BTC" 50000 (some 60000)).get 61000 "BTC").1 = none ∧
    (((cacheNew Int none none).set 0 "BTC" 50000 (some 60000)).has 61000 "BTC").1 = false :=
  ⟨(c4_expiry (cacheNew Int none none) 0 61000 "BTC" 50000 60000 (by simp [storeKeys, cacheNew])
      (by decide) (by decide)).1,
   (c4_expiry (cacheNew Int none none) 0 61000 "BTC" 50000 60000 (by simp [storeKeys, cacheNew])
      (by decide) (by decide)).2.1,
   (c4_expiry (cacheNew Int none none) 0 61000 "BTC" 50000 60000 (by simp [storeKeys, cacheNew])
      (by decide) (by decide)).2.2.2⟩

/-- C6 (amended): when the cache holds a non-expired entry with a truthy
value (`value ≠ 0`) for the key, `getPrice` returns that cached value and
calls neither provider; a cached falsy value (`0`) instead falls through
to the providers. -/
theorem c6_cache_hit (c : Cache Int) (now : Int) (symbol : String) (e : Entry Int)
    (primary : Except String Int) (fallback : Option (Except String Int))
    (hget : mapGet (cacheKeyOf symbol) c.store = some e)
    (hlive : ¬ e.expiry < now) (hval : e.value ≠ 0) :
    (getPrice c now symbol primary fallback).result = Except.ok e.value ∧
    (getPrice c now symbol primary fallback).calledPrimary = false ∧
    (getPrice c now symbol primary fallback).calledFallback = false := by
  refine ⟨?_, ?_, ?_⟩ <;> simp [getPrice, Cache.get, hget, hlive, jsTruthyInt, hval]

/-- Witness for C6: cached truthy price 5 for BTC; even with a failing
primary and no fallback, `getPrice` answers 5 without any provider
call. -/
theorem c6_cache_hit_witness :
    (getPrice ((cacheNew Int none none).set 0 (cacheKeyOf "BTC") 5 none) 0 "BTC"
        (Except.error "down") none).result = Except.ok 5 ∧
    (getPrice ((cacheNew Int none none).set 0 (cacheKeyOf "BTC") 5 none) 0 "BTC"
        (Except.error "down") none).calledPrimary = false :=
  ⟨(c6_cache_hit ((cacheNew Int none none).set 0 (cacheKeyOf "BTC") 5 none) 0 "BTC"
      ⟨5, 0, 60000⟩ (Except.error "down") none (by decide) (by decide) (by decide)).1,
   (c6_cache_hit ((cacheNew Int none none).set 0 (cacheKeyOf "BTC") 5 none) 0 "BTC"
      ⟨5, 0, 60000⟩ (Except.error "down") none (by decide) (by decide) (by decide)).2.1⟩

/-- C7 (amended): every entry created by `set` satisfies
`expiresAt > createdAt` provided the default TTL of the cache is positive
(as in every cache of the service) and the per-call ttl argument, when
given, is nonnegative; a negative per-call ttl instead yields
`expiresAt < createdAt`. -/
theorem c7_expiry_gt_created {α : Type} (c : Cache α) (now : Int) (k : String) (v : α)
    (ttl : Option Int) (hdef : 0 < c.ttl) (harg : ∀ t, ttl = some t → 0 ≤ t) :
    ∃ e, mapGet k ((c.set now k v ttl).store) = some e ∧
      e.value = v ∧ e.timestamp = now ∧ e.timestamp < e.expiry := by
  refine ⟨_, mapGet_set_self c now k v ttl, rfl, rfl, ?_⟩
  show now < now + effectiveTtl c.ttl ttl
  have hpos : 0 < effectiveTtl c.ttl ttl := by
    cases ttl with
    | none => simpa [effectiveTtl] using hdef
    | some t =>
        have ht := harg t rfl
        by_cases h0 : t = 0
        · simpa [effectiveTtl, h0] using hdef
        · simp only [effectiveTtl, if_neg h0]
          omega
  omega

/-- Witness for C7 with per-call ttl 10 at time 100. -/
theorem c7_expiry_gt_created_witness :
    ∃ e, mapGet "k" (((cacheNew Int none none).set 100 "k" (1 : Int) (some 10)).store) =
      some e ∧ e.value = 1 ∧ e.timestamp = 100 ∧ e.timestamp < e.expiry :=
  c7_expiry_gt_created (cacheNew Int none none) 100 "k" 1 (some 10) (by decide)
    (fun t ht => by injection ht with h; omega)

end Nova
